import Mathlib

/-!
# Routing, registration and context resolution of the assistant core

A shallow embedding of `rpc.go` (package registry, `RegisterPackage`, `getPkg`)
and of `shared/datatypes/conversation.go` (`GetLastRoute`, `addContext`,
`getContextObject`, `SentenceFields`), followed by the properties proved about
them.

Conventions of the embedding.

* A Go `string` is a sequence of bytes: `GoString := List Nat`, `+` is `++`,
  `len(s) == 0` is `s.length = 0`.
* Functions of the Go standard library are arguments of the definitions that
  call them: `ToLower` stands for `strings.ToLower`, `Fields` for
  `strings.Fields`, `Dial` for `rpc.Dial "tcp"`.  `asciiToLower` and
  `asciiFields` are what the two string functions compute on strings made of
  ASCII bytes only; they are used to evaluate the code on concrete inputs.
* A nilable pointer (`*PkgWrapper`, `*User`, `*Vocab`) is an `Option`.
  `m.StructuredInput` and `p.Trigger` are taken to be non-nil: the code
  dereferences them unconditionally.
* The database is an oracle `DB` giving the outcome of each of the two
  `db.Get` calls of the embedded functions.
* A Go multi-value return `(a, b, err)` is a tuple whose last component is an
  `Option Error` (`none` is the nil error).
* Logging, the mutex of `pkgMap` and `runtime.Gosched` have no effect on the
  values computed and are left out.
-/

namespace Abot

/-! ## Strings -/

/-- A Go string: its bytes. -/
abbrev GoString := List Nat

/-- The bytes (UTF-8) of a string literal. -/
def str (s : String) : GoString :=
  (s.data.flatMap String.utf8EncodeChar).map UInt8.toNat

/-- What `strings.ToLower` returns on a string of ASCII bytes: the letters
`A`..`Z` are moved to `a`..`z`, every other byte is kept. -/
def asciiToLower (s : GoString) : GoString :=
  s.map (fun b => if 65 ≤ b ∧ b ≤ 90 then b + 32 else b)

/-- The ASCII white space of `strings.Fields`: tab, line feed, vertical tab,
form feed, carriage return, space. -/
def asciiIsSpace (b : Nat) : Bool :=
  b == 9 || b == 10 || b == 11 || b == 12 || b == 13 || b == 32

/-- Splitting around runs of white space, `cur` being the field under
construction. -/
def asciiFieldsAux : List Nat → GoString → List GoString
  | [], cur => if cur.length = 0 then [] else [cur]
  | b :: bs, cur =>
    if asciiIsSpace b then
      if cur.length = 0 then asciiFieldsAux bs [] else cur :: asciiFieldsAux bs []
    else asciiFieldsAux bs (cur ++ [b])

/-- What `strings.Fields` returns on a string of ASCII bytes. -/
def asciiFields (s : GoString) : List GoString :=
  asciiFieldsAux s []

/-- The type `int` (64 bits): the value of an arithmetic result after
wrap-around. -/
def wrapInt (x : Int) : Int :=
  (x + 2 ^ 63) % 2 ^ 64 - 2 ^ 63

/-- The decimal text of an `int`, as `strconv.Itoa` writes it. -/
def Itoa (i : Int) : GoString :=
  str (toString i)

/-! ## Errors -/

/-- Errors coming back from `db.Get`: `sql.ErrNoRows`, or any other failure of
the query or of the scan. -/
inductive SqlError where
  | ErrNoRows
  | other (code : Nat)
  deriving DecidableEq, Repr

/-- The error values that the embedded functions return.  `ErrMissingUser` is
declared in `conversation.go`.  Modelled from the spec: `ErrMissingPackage`, the
missing-handler error, is declared in a file of package `main` that is absent
from the sources.  `unknownPronoun` is
`errors.New("unknown type found for pronoun")`, `sql` an error of `db.Get` and
`net` an error of `rpc.Dial`. -/
inductive Error where
  | ErrMissingUser
  | ErrMissingPackage
  | unknownPronoun
  | sql (e : SqlError)
  | net (code : Nat)
  deriving DecidableEq, Repr

/-! ## Data model -/

/-- Modelled from the spec: `nlp.StringSlice`, a slice of strings (the type is
declared in package `nlp`, absent from the sources). -/
abbrev StringSlice := List GoString

/-- Modelled from the spec: `StringSlice.Last`, "the last recorded value" of a
slot, the empty string when the slice is empty ("column empty"). -/
def StringSlice.Last (s : StringSlice) : GoString :=
  match s.getLast? with
  | some x => x
  | none => []

/-- Modelled from the spec: `nlp.StructuredInput`, the "ordered sets of
detected commands, objects, actors, times, places for one utterance" (declared
in package `nlp`, absent from the sources). -/
structure StructuredInput where
  Commands : StringSlice
  Objects : StringSlice
  Actors : StringSlice
  Times : StringSlice
  Places : StringSlice
  deriving DecidableEq, Repr

/-- Modelled from the spec: the four semantic slots a pronoun is classified
into, `nlp.ObjectI`, `nlp.ActorI`, `nlp.TimeI`, `nlp.PlaceI` (constants of
package `nlp`, absent from the sources); `unrecognized` is any other value of
`nlp.Pronouns[w]`, the one the `default` branch of `addContext` receives. -/
inductive PronounSlot where
  | ObjectI
  | ActorI
  | TimeI
  | PlaceI
  | unrecognized
  deriving DecidableEq, Repr

/-- Modelled from the spec: what `addContext` uses of package `nlp` (absent
from the sources): the table `nlp.Pronouns` that classifies a pronoun token, and
the method `StructuredInput.Pronouns()` "producing the list of detected pronoun
tokens". -/
structure Nlp where
  Pronouns : GoString → PronounSlot
  detected : StructuredInput → List GoString

/-- The type `dt.User`, of which the embedded code reads the field `ID`. -/
structure User where
  ID : Nat
  deriving DecidableEq, Repr

/-- The type `dt.Msg` (one turn); `State` and `Stems` are not read by the
embedded functions and are left out. -/
structure Msg where
  ID : Nat
  Sentence : GoString
  User : Option User
  StructuredInput : StructuredInput
  Route : GoString
  Package : GoString
  AvaSent : Bool
  SentenceFields : List GoString
  deriving DecidableEq, Repr

/-- Modelled from the spec: the configuration of a handler, "name, network
address, configured port" (`pkg.Pkg.Config`, absent from the sources). -/
structure PkgConfig where
  Name : GoString
  ServerAddress : GoString
  Port : Int
  deriving DecidableEq, Repr

/-- Modelled from the spec: the "optional broader vocabulary" of a handler
(`pkg.Pkg.Vocab`, absent from the sources).  `RegisterPackage` ranges over the
keys of its two maps; the keys are listed here. -/
structure Vocab where
  Commands : List GoString
  Objects : List GoString
  deriving DecidableEq, Repr

/-- Modelled from the spec: a handler description `pkg.Pkg` (absent from the
sources): configuration, trigger vocabulary (commands and objects) and optional
broader vocabulary. -/
structure Pkg where
  Config : PkgConfig
  Trigger : StructuredInput
  Vocab : Option Vocab
  deriving DecidableEq, Repr

/-- A connection `*rpc.Client`, identified by a number. -/
structure RPCClient where
  conn : Nat
  deriving DecidableEq, Repr

/-- Modelled from the spec: a registry entry `pkg.PkgWrapper` (absent from the
sources), which "pairs a registered handler's static description with a live
remote-call connection". -/
structure PkgWrapper where
  P : Pkg
  RPCClient : RPCClient
  deriving DecidableEq, Repr

/-! ## The registry (`rpc.go`) -/

/-- The type `pkgMap`: the Go map from routing key to entry; a key without
entry reads as nil. -/
structure pkgMap where
  pkgs : GoString → Option PkgWrapper

/-- The registry at start-up, `make(map[string]*pkg.PkgWrapper)`. -/
def pkgMap.empty : pkgMap :=
  ⟨fun _ => none⟩

/-- The method `pkgMap.Get`. -/
def pkgMap.Get (pm : pkgMap) (k : GoString) : Option PkgWrapper :=
  pm.pkgs k

/-- The method `pkgMap.Set`. -/
def pkgMap.Set (pm : pkgMap) (k : GoString) (v : PkgWrapper) : pkgMap :=
  ⟨fun k2 => if k2 = k then some v else pm.pkgs k2⟩

/-- Modelled from the spec: `dt.AtomicMap` (absent from the sources), the
"set-like structure" that "tracks every command/object word ever seen". -/
structure AtomicMap where
  words : GoString → Bool

/-- The vocabulary at start-up. -/
def AtomicMap.empty : AtomicMap :=
  ⟨fun _ => false⟩

/-- Modelled from the spec: `AtomicMap.Set`. -/
def AtomicMap.Set (am : AtomicMap) (k : GoString) (v : Bool) : AtomicMap :=
  ⟨fun k2 => if k2 = k then v else am.words k2⟩

/-- Modelled from the spec: `AtomicMap.Get`. -/
def AtomicMap.Get (am : AtomicMap) (k : GoString) : Bool :=
  am.words k

/-- The process-wide state of `rpc.go`: `regPkgs` and `appVocab`. -/
structure Globals where
  regPkgs : pkgMap
  appVocab : AtomicMap

/-- The state at start-up. -/
def Globals.init : Globals :=
  ⟨pkgMap.empty, AtomicMap.empty⟩

/-- The routing key of a command and an object,
`strings.ToLower(c + "_" + o)`. -/
def routeKey (ToLower : GoString → GoString) (c o : GoString) : GoString :=
  ToLower (c ++ str "_" ++ o)

/-- The inner loop of `RegisterPackage`, `for _, o := range p.Trigger.Objects`,
for the command `c`. -/
def registerObjects (ToLower : GoString → GoString) (p : Pkg) (cl : RPCClient)
    (c : GoString) : List GoString → Globals → Globals
  | [], g => g
  | o :: os, g =>
    let vocab := g.appVocab.Set o true
    let s := routeKey ToLower c o
    registerObjects ToLower p cl c os ⟨g.regPkgs.Set s ⟨p, cl⟩, vocab⟩

/-- The outer loop of `RegisterPackage`,
`for _, c := range p.Trigger.Commands`. -/
def registerCommands (ToLower : GoString → GoString) (p : Pkg) (cl : RPCClient) :
    List GoString → Globals → Globals
  | [], g => g
  | c :: cs, g =>
    let g1 : Globals := ⟨g.regPkgs, g.appVocab.Set c true⟩
    registerCommands ToLower p cl cs (registerObjects ToLower p cl c p.Trigger.Objects g1)

/-- The loops `for k := range ...` of `RegisterPackage` over the keys of a
vocabulary map. -/
def registerVocab : List GoString → AtomicMap → AtomicMap
  | [], am => am
  | k :: ks, am => registerVocab ks (am.Set k true)

/-- The method `Ava.RegisterPackage`: the error returned and the state left. -/
def RegisterPackage (ToLower : GoString → GoString)
    (Dial : GoString → Except Error RPCClient) (p : Pkg) (g : Globals) :
    Option Error × Globals :=
  let pt := wrapInt (p.Config.Port + 1)
  let port := str ":" ++ Itoa pt
  let addr := p.Config.ServerAddress ++ port
  match Dial addr with
  | .error err => (some err, g)
  | .ok cl =>
    let g1 := registerCommands ToLower p cl p.Trigger.Commands g
    match p.Vocab with
    | none => (none, g1)
    | some v =>
      (none, ⟨g1.regPkgs, registerVocab v.Objects (registerVocab v.Commands g1.appVocab)⟩)

/-! ## The database and the last route (`conversation.go`) -/

/-- The outcomes of the two `db.Get` calls: `lastRoute uid` is the one of
`GetLastRoute` for the user `uid` (the route of the first row of the user's
turns that the assistant did not author, most recent first), `context col uid`
the one of `getContextObject` for the column `col` (the slot of a turn of the
user with at least one object). -/
structure DB where
  lastRoute : Nat → Except SqlError GoString
  context : GoString → Nat → Except SqlError StringSlice

/-- The method `Msg.GetLastRoute`, for the user `u` of the turn. -/
def GetLastRoute (db : DB) (u : User) : GoString × Option Error :=
  match db.lastRoute u.ID with
  | .ok route => (route, none)
  | .error err =>
    if err ≠ SqlError.ErrNoRows then ([], some (Error.sql err)) else ([], none)

/-! ## Routing (`rpc.go`) -/

/-- The inner loop of `getPkg`, `for _, o := range si.Objects`, for the command
`c`: the values of `p` and `route` when the loop is left, and whether it was left
by `break Loop`. -/
def searchObjects (ToLower : GoString → GoString) (regPkgs : pkgMap) (c : GoString) :
    List GoString → Option PkgWrapper × GoString → Option PkgWrapper × GoString × Bool
  | [], (p, route) => (p, route, false)
  | o :: os, _ =>
    let route := routeKey ToLower c o
    let p := regPkgs.Get route
    if p.isSome then (p, route, true)
    else searchObjects ToLower regPkgs c os (p, route)

/-- The outer loop of `getPkg`, `for _, c := range si.Commands`: the values of
`p` and `route` after the labelled loop. -/
def searchCommands (ToLower : GoString → GoString) (regPkgs : pkgMap)
    (objects : List GoString) :
    List GoString → Option PkgWrapper × GoString → Option PkgWrapper × GoString
  | [], st => st
  | c :: cs, st =>
    match searchObjects ToLower regPkgs c objects st with
    | (p, route, true) => (p, route)
    | (p, route, false) => searchCommands ToLower regPkgs objects cs (p, route)

/-- The function `getPkg`: entry, routing key, follow-up flag, error. -/
def getPkg (ToLower : GoString → GoString) (regPkgs : pkgMap) (db : DB) (m : Msg) :
    Option PkgWrapper × GoString × Bool × Option Error :=
  match m.User with
  | none =>
    match regPkgs.Get (str "onboard_onboard") with
    | some p => (some p, str "onboard_onboard", false, none)
    | none => (none, str "onboard_onboard", false, some Error.ErrMissingPackage)
  | some u =>
    let si := m.StructuredInput
    match searchCommands ToLower regPkgs si.Objects si.Commands (none, []) with
    | (some p, route) => (some p, route, false, none)
    | (none, route) =>
      let fetched : Except Error GoString :=
        if route.length = 0 then
          match GetLastRoute db u with
          | (r, none) => .ok r
          | (r, some err) =>
            if err = Error.sql SqlError.ErrNoRows then .ok r else .error err
        else .ok route
      match fetched with
      | .error err => (none, [], false, some err)
      | .ok route =>
        if route.length = 0 then (none, route, false, none)
        else
          match regPkgs.Get route with
          | none => (none, route, false, some Error.ErrMissingPackage)
          | some p => (some p, route, true, none)

/-! ## Context resolution (`conversation.go`) -/

/-- The function `getContextObject`: the referent read for the column
`datatype`, and the error. -/
def getContextObject (db : DB) (u : Option User) (_si : StructuredInput)
    (datatype : GoString) : GoString × Option Error :=
  match u with
  | none => ([], some Error.ErrMissingUser)
  | some u =>
    match db.context datatype u.ID with
    | .error err => ([], some (Error.sql err))
    | .ok tmp => (tmp.Last, none)

/-- The loops `for i, o := range slot { if o != w { continue }; slot[i] = ctx }`
of `addContext`: the slot after the loop. -/
def substitute (w ctx : GoString) : List GoString → List GoString
  | [] => []
  | o :: os => (if o ≠ w then o else ctx) :: substitute w ctx os

/-- The loop `for _, w := range m.StructuredInput.Pronouns()` of `addContext`
over the pronouns still to resolve. -/
def addContextLoop (nlp : Nlp) (db : DB) : List GoString → Msg → Msg × Option Error
  | [], m => (m, none)
  | w :: ws, m =>
    match nlp.Pronouns w with
    | PronounSlot.ObjectI =>
      match getContextObject db m.User m.StructuredInput (str "objects") with
      | (_, some err) => (m, some err)
      | (ctx, none) =>
        if ctx.length = 0 then (m, none)
        else
          addContextLoop nlp db ws
            { m with StructuredInput :=
                { m.StructuredInput with
                  Objects := substitute w ctx m.StructuredInput.Objects } }
    | PronounSlot.ActorI =>
      match getContextObject db m.User m.StructuredInput (str "actors") with
      | (_, some err) => (m, some err)
      | (ctx, none) =>
        if ctx.length = 0 then (m, none)
        else
          addContextLoop nlp db ws
            { m with StructuredInput :=
                { m.StructuredInput with
                  Actors := substitute w ctx m.StructuredInput.Actors } }
    | PronounSlot.TimeI =>
      match getContextObject db m.User m.StructuredInput (str "times") with
      | (_, some err) => (m, some err)
      | (ctx, none) =>
        if ctx.length = 0 then (m, none)
        else
          addContextLoop nlp db ws
            { m with StructuredInput :=
                { m.StructuredInput with
                  Times := substitute w ctx m.StructuredInput.Times } }
    | PronounSlot.PlaceI =>
      match getContextObject db m.User m.StructuredInput (str "places") with
      | (_, some err) => (m, some err)
      | (ctx, none) =>
        if ctx.length = 0 then (m, none)
        else
          addContextLoop nlp db ws
            { m with StructuredInput :=
                { m.StructuredInput with
                  Places := substitute w ctx m.StructuredInput.Places } }
    | PronounSlot.unrecognized => (m, some Error.unknownPronoun)

/-- The function `addContext`: the turn (rewritten in place by the code) and the
error. -/
def addContext (nlp : Nlp) (db : DB) (m : Msg) : Msg × Option Error :=
  addContextLoop nlp db (nlp.detected m.StructuredInput) m

/-! ## Tokens of a sentence (`conversation.go`) -/

/-- The punctuation marks of the `switch` of `SentenceFields`:
`\x27` (39), `"` (34), `,` (44), `.` (46), `:` (58), `;` (59), `!` (33), `?` (63). -/
def isMark (r : Nat) : Bool :=
  r == 39 || r == 34 || r == 44 || r == 46 || r == 58 || r == 59 || r == 33 || r == 63

/-- The loop `for _, r := range w` of `SentenceFields`: the flag `end` and the
slice `ret` after it.  The loop ranges over the runes of `w`; the marks are
ASCII, and in UTF-8 a byte below 128 is always a rune of its own while every
other rune (the replacement rune of an invalid byte included) is above 127, so
the runes equal to a mark are the bytes equal to it, and `string(r)` is that one
byte. -/
def scanWord : List Nat → Bool × List GoString → Bool × List GoString
  | [], st => st
  | r :: rs, (e, ret) =>
    if isMark r then scanWord rs (true, ret ++ [[r]]) else scanWord rs (e, ret)

/-- The loop `for _, w := range strings.Fields(s)` of `SentenceFields` over the
words still to read; `w[:len(w)-1]` is `w` without its last byte. -/
def sentenceWords (ToLower : GoString → GoString) :
    List GoString → List GoString → List GoString
  | [], ret => ret
  | w :: ws, ret =>
    match scanWord w (false, ret) with
    | (true, ret1) => sentenceWords ToLower ws (ret1 ++ [ToLower (w.take (w.length - 1))])
    | (false, ret1) => sentenceWords ToLower ws (ret1 ++ [ToLower w])

/-- The function `SentenceFields`. -/
def SentenceFields (Fields : GoString → List GoString) (ToLower : GoString → GoString)
    (s : GoString) : List GoString :=
  sentenceWords ToLower (Fields s) []

/-! ## Vocabulary of the properties -/

/-- The (command, object) pairs of a turn in the order `getPkg` tries them:
commands in the outer loop, objects in the inner loop. -/
def pairs (commands objects : List GoString) : List (GoString × GoString) :=
  commands.flatMap (fun c => objects.map (fun o => (c, o)))

/-- The routing keys of the trigger pairs of a handler. -/
def triggerKeys (ToLower : GoString → GoString) (p : Pkg) : List GoString :=
  (pairs p.Trigger.Commands p.Trigger.Objects).map (fun q => routeKey ToLower q.1 q.2)

/-- The address `RegisterPackage` dials for a handler:
`ServerAddress + ":" + strconv.Itoa(Port + 1)`. -/
def pkgAddr (p : Pkg) : GoString :=
  p.Config.ServerAddress ++ (str ":" ++ Itoa (wrapInt (p.Config.Port + 1)))

/-- The state after a sequence of registrations, in order. -/
def registerAll (ToLower : GoString → GoString) (Dial : GoString → Except Error RPCClient) :
    List Pkg → Globals → Globals
  | [], g => g
  | p :: ps, g => registerAll ToLower Dial ps (RegisterPackage ToLower Dial p g).2

/-- The trigger words of a handler: its commands and its objects. -/
def triggerWords (p : Pkg) : List GoString :=
  p.Trigger.Commands ++ p.Trigger.Objects

/-- A token that is exactly one punctuation mark. -/
def isMarkToken (t : GoString) : Bool :=
  match t with
  | [r] => isMark r
  | _ => false

/-- A token that holds no punctuation mark. -/
def markFree (t : GoString) : Bool :=
  t.all (fun r => !isMark r)

/-- The search of `getPkg` over the list of (command, object) pairs in the order
tried, with the same body as the nested loops: the values of `p` and `route`
after it. -/
def searchPairs (ToLower : GoString → GoString) (regPkgs : pkgMap) :
    List (GoString × GoString) → Option PkgWrapper × GoString → Option PkgWrapper × GoString
  | [], st => st
  | q :: qs, _ =>
    let route := routeKey ToLower q.1 q.2
    let p := regPkgs.Get route
    if p.isSome then (p, route) else searchPairs ToLower regPkgs qs (p, route)

/-! ## Concrete handlers, registries, turns and histories -/

/-- A handler for buying coffee, listening on port 4000. -/
def coffeePkg : Pkg :=
  ⟨⟨str "coffee", str "localhost", 4000⟩, ⟨[str "buy"], [str "coffee"], [], [], []⟩, none⟩

/-- A handler for ordering pizza, listening on port 5000, with a broader
vocabulary. -/
def pizzaPkg : Pkg :=
  ⟨⟨str "pizza", str "localhost", 5000⟩, ⟨[str "order"], [str "pizza"], [], [], []⟩,
    some ⟨[str "deliver"], [str "pie"]⟩⟩

/-- A handler whose command word holds an underscore. -/
def comboPkg : Pkg :=
  ⟨⟨str "combo", str "localhost", 4000⟩,
    ⟨[str "order_large"], [str "pizza"], [], [], []⟩, none⟩

/-- A handler whose object word holds an underscore. -/
def sizePkg : Pkg :=
  ⟨⟨str "size", str "localhost", 5000⟩,
    ⟨[str "order"], [str "large_pizza"], [], [], []⟩, none⟩

/-- A handler description with trigger objects and no trigger command. -/
def objectOnlyPkg : Pkg :=
  ⟨⟨str "coffee", str "localhost", 4000⟩, ⟨[], [str "coffee"], [], [], []⟩, none⟩

/-- A network on which the ports 4001 and 5001 of `localhost` accept a
connection and nothing else does. -/
def demoDial (addr : GoString) : Except Error RPCClient :=
  if addr = str "localhost:4001" then .ok ⟨1⟩
  else if addr = str "localhost:5001" then .ok ⟨2⟩
  else .error (Error.net 111)

/-- A registry in which only `buy_coffee` is registered. -/
def regCoffee : pkgMap :=
  pkgMap.empty.Set (str "buy_coffee") ⟨coffeePkg, ⟨1⟩⟩

/-- A registry in which only `order_pizza` is registered. -/
def regPizza : pkgMap :=
  pkgMap.empty.Set (str "order_pizza") ⟨pizzaPkg, ⟨2⟩⟩

/-- A turn of the user `u` with the given detected commands and objects. -/
def turn (u : Option User) (commands objects : List GoString) : Msg where
  ID := 0
  Sentence := []
  User := u
  StructuredInput := ⟨commands, objects, [], [], []⟩
  Route := []
  Package := []
  AvaSent := false
  SentenceFields := []

/-- A history without any row. -/
def dbEmpty : DB where
  lastRoute _ := .error SqlError.ErrNoRows
  context _ _ := .error SqlError.ErrNoRows

/-- A history in which the last turn of every user was served on
`order_pizza`. -/
def dbPizza : DB where
  lastRoute _ := .ok (str "order_pizza")
  context _ _ := .error SqlError.ErrNoRows

/-- A history in which the user 7 has a turn whose objects were `tea` and
`coffee`. -/
def dbCoffee : DB where
  lastRoute _ := .ok (str "buy_coffee")
  context col uid :=
    if uid = 7 ∧ col = str "objects" then .ok [str "tea", str "coffee"]
    else .error SqlError.ErrNoRows

/-- A pronoun table with the four slots, and a detection that lists each
pronoun token of the objects, actors, times and places once. -/
def demoNlp : Nlp where
  Pronouns w :=
    if w = str "it" ∨ w = str "that" ∨ w = str "this" then PronounSlot.ObjectI
    else if w = str "them" ∨ w = str "him" ∨ w = str "her" then PronounSlot.ActorI
    else if w = str "then" then PronounSlot.TimeI
    else if w = str "there" ∨ w = str "here" then PronounSlot.PlaceI
    else PronounSlot.unrecognized
  detected si :=
    ((si.Objects ++ si.Actors ++ si.Times ++ si.Places).filter
      (fun w => decide (w ∈ [str "it", str "that", str "this", str "them", str "him",
        str "her", str "then", str "there", str "here"]))).dedup

/-- A detection that reports the token `those`, which the pronoun table does not
classify. -/
def mismatchNlp : Nlp where
  Pronouns w := if w = str "it" then PronounSlot.ObjectI else PronounSlot.unrecognized
  detected si := si.Objects.filter (fun w => decide (w ∈ [str "it", str "those"]))

/-! ## The search of `getPkg` -/

/-- The search over a concatenation: the first list decides when it finds an entry,
otherwise the search goes on in the second list from the route reached. -/
theorem searchPairs_append (ToLower : GoString → GoString) (regPkgs : pkgMap)
    (l1 l2 : List (GoString × GoString)) (r : GoString) :
    searchPairs ToLower regPkgs (l1 ++ l2) (none, r) =
      if (searchPairs ToLower regPkgs l1 (none, r)).1.isSome
      then searchPairs ToLower regPkgs l1 (none, r)
      else searchPairs ToLower regPkgs l2 (none, (searchPairs ToLower regPkgs l1 (none, r)).2) := by
  induction l1 generalizing r with
  | nil => simp [searchPairs]
  | cons q qs ih =>
    simp only [List.cons_append, searchPairs]
    cases h : regPkgs.Get (routeKey ToLower q.1 q.2) with
    | some e => simp
    | none => simpa using ih _

/-- A search that finds nothing returns nil for `p`. -/
theorem searchPairs_none_fst (ToLower : GoString → GoString) (regPkgs : pkgMap)
    (l : List (GoString × GoString)) (r : GoString)
    (h : (searchPairs ToLower regPkgs l (none, r)).1.isSome = false) :
    searchPairs ToLower regPkgs l (none, r) =
      (none, (searchPairs ToLower regPkgs l (none, r)).2) := by
  cases hs : searchPairs ToLower regPkgs l (none, r) with
  | mk p route =>
    rw [hs] at h
    cases p with
    | none => rfl
    | some e => simp at h

/-- The inner loop of `getPkg` for the command `c` is the search over the pairs
`(c, o)`, and it breaks out exactly when an entry is found. -/
theorem searchObjects_eq (ToLower : GoString → GoString) (regPkgs : pkgMap) (c : GoString)
    (os : List GoString) (r : GoString) :
    searchObjects ToLower regPkgs c os (none, r) =
      ((searchPairs ToLower regPkgs (os.map (fun o => (c, o))) (none, r)).1,
       (searchPairs ToLower regPkgs (os.map (fun o => (c, o))) (none, r)).2,
       (searchPairs ToLower regPkgs (os.map (fun o => (c, o))) (none, r)).1.isSome) := by
  induction os generalizing r with
  | nil => simp [searchObjects, searchPairs]
  | cons o os ih =>
    simp only [List.map_cons, searchObjects, searchPairs]
    cases h : regPkgs.Get (routeKey ToLower c o) with
    | some e => simp
    | none => simpa using ih _

/-- The nested loops of `getPkg` are the search over the list of pairs, commands in
the outer loop and objects in the inner loop. -/
theorem searchCommands_eq (ToLower : GoString → GoString) (regPkgs : pkgMap)
    (os cs : List GoString) (r : GoString) :
    searchCommands ToLower regPkgs os cs (none, r) =
      searchPairs ToLower regPkgs (pairs cs os) (none, r) := by
  induction cs generalizing r with
  | nil => simp [searchCommands, searchPairs, pairs]
  | cons c cs ih =>
    have hp : pairs (c :: cs) os = os.map (fun o => (c, o)) ++ pairs cs os := by
      simp [pairs]
    rw [hp, searchPairs_append, searchCommands, searchObjects_eq]
    cases hb : (searchPairs ToLower regPkgs (os.map (fun o => (c, o))) (none, r)).1.isSome with
    | true => simp
    | false =>
      simp only [Bool.false_eq_true, if_false]
      have := searchPairs_none_fst ToLower regPkgs _ r hb
      rw [this]
      simpa using ih _


/-- The search stops at the first registered pair. -/
theorem searchPairs_hit (ToLower : GoString → GoString) (regPkgs : pkgMap)
    (pre post : List (GoString × GoString)) (q : GoString × GoString) (e : PkgWrapper)
    (st : Option PkgWrapper × GoString)
    (hpre : ∀ x ∈ pre, regPkgs.Get (routeKey ToLower x.1 x.2) = none)
    (hq : regPkgs.Get (routeKey ToLower q.1 q.2) = some e) :
    searchPairs ToLower regPkgs (pre ++ q :: post) st = (some e, routeKey ToLower q.1 q.2) := by
  induction pre generalizing st with
  | nil => simp [searchPairs, hq]
  | cons x xs ih =>
    have hx : regPkgs.Get (routeKey ToLower x.1 x.2) = none := hpre x (by simp)
    simp only [List.cons_append, searchPairs, hx]
    exact ih _ (fun y hy => hpre y (by simp [hy]))

/-- When no pair is registered the search ends with `p` nil and the key of the last
pair tried (or the initial route when there is no pair). -/
theorem searchPairs_miss (ToLower : GoString → GoString) (regPkgs : pkgMap)
    (l : List (GoString × GoString)) (r : GoString)
    (hl : ∀ x ∈ l, regPkgs.Get (routeKey ToLower x.1 x.2) = none) :
    searchPairs ToLower regPkgs l (none, r) =
      (none, l.foldl (fun _ x => routeKey ToLower x.1 x.2) r) := by
  induction l generalizing r with
  | nil => simp [searchPairs]
  | cons x xs ih =>
    have hx : regPkgs.Get (routeKey ToLower x.1 x.2) = none := hl x (by simp)
    simp only [searchPairs, hx, List.foldl_cons]
    exact ih _ (fun y hy => hl y (by simp [hy]))

/-- An entry found by the search is the registry entry at the route found. -/
theorem searchPairs_inv (ToLower : GoString → GoString) (regPkgs : pkgMap)
    (l : List (GoString × GoString)) (r : GoString) (e : PkgWrapper)
    (h : (searchPairs ToLower regPkgs l (none, r)).1 = some e) :
    regPkgs.Get (searchPairs ToLower regPkgs l (none, r)).2 = some e := by
  induction l generalizing r with
  | nil => simp [searchPairs] at h
  | cons x xs ih =>
    simp only [searchPairs] at h ⊢
    cases hx : regPkgs.Get (routeKey ToLower x.1 x.2) with
    | some e2 =>
      rw [hx] at h
      simp at h
      simp [hx, h]
    | none =>
      rw [hx] at h
      simp only [Option.isSome_none, Bool.false_eq_true, if_false] at h ⊢
      exact ih _ h

/-- A list with a registered pair splits at its first registered pair. -/
theorem exists_first_registered (ToLower : GoString → GoString) (regPkgs : pkgMap)
    (l : List (GoString × GoString))
    (hex : ∃ q ∈ l, (regPkgs.Get (routeKey ToLower q.1 q.2)).isSome = true) :
    ∃ pre c o post e, l = pre ++ (c, o) :: post ∧
      (∀ x ∈ pre, regPkgs.Get (routeKey ToLower x.1 x.2) = none) ∧
      regPkgs.Get (routeKey ToLower c o) = some e := by
  induction l with
  | nil => simp at hex
  | cons x xs ih =>
    cases hx : regPkgs.Get (routeKey ToLower x.1 x.2) with
    | some e => exact ⟨[], x.1, x.2, xs, e, by simp, by simp, hx⟩
    | none =>
      obtain ⟨q, hq, hhit⟩ := hex
      have hq2 : q ∈ xs := by
        rcases List.mem_cons.mp hq with h | h
        · subst h; simp [hx] at hhit
        · exact h
      obtain ⟨pre, c, o, post, e, hsplit, hpre, hhit2⟩ := ih ⟨q, hq2, hhit⟩
      refine ⟨x :: pre, c, o, post, e, by simp [hsplit], ?_, hhit2⟩
      intro y hy
      rcases List.mem_cons.mp hy with h | h
      · subst h; exact hx
      · exact hpre y h

/-! ## What a registration leaves in the registry and in the vocabulary -/

/-- The registry after the inner loop of `RegisterPackage`. -/
theorem registerObjects_get (ToLower : GoString → GoString) (p : Pkg) (cl : RPCClient)
    (c : GoString) (os : List GoString) (g : Globals) (k : GoString) :
    (registerObjects ToLower p cl c os g).regPkgs.Get k =
      if k ∈ os.map (fun o => routeKey ToLower c o) then some ⟨p, cl⟩
      else g.regPkgs.Get k := by
  induction os generalizing g with
  | nil => simp [registerObjects]
  | cons o os ih =>
    simp only [registerObjects, ih, List.map_cons, List.mem_cons]
    by_cases h1 : k ∈ os.map (fun o => routeKey ToLower c o)
    · simp [h1]
    · by_cases h2 : k = routeKey ToLower c o
      · simp [h1, h2, pkgMap.Get, pkgMap.Set]
      · simp [h1, h2, pkgMap.Get, pkgMap.Set]

/-- The registry after the outer loop of `RegisterPackage`. -/
theorem registerCommands_get (ToLower : GoString → GoString) (p : Pkg) (cl : RPCClient)
    (cs : List GoString) (g : Globals) (k : GoString) :
    (registerCommands ToLower p cl cs g).regPkgs.Get k =
      if k ∈ (pairs cs p.Trigger.Objects).map (fun q => routeKey ToLower q.1 q.2)
      then some ⟨p, cl⟩ else g.regPkgs.Get k := by
  induction cs generalizing g with
  | nil => simp [registerCommands, pairs]
  | cons c cs ih =>
    have hp : pairs (c :: cs) p.Trigger.Objects =
        p.Trigger.Objects.map (fun o => (c, o)) ++ pairs cs p.Trigger.Objects := by
      simp [pairs]
    simp only [registerCommands, ih, registerObjects_get, hp, List.map_append, List.mem_append,
      List.map_map]
    by_cases h1 : k ∈ (pairs cs p.Trigger.Objects).map (fun q => routeKey ToLower q.1 q.2)
    · simp [h1]
    · by_cases h2 : k ∈ p.Trigger.Objects.map (fun o => routeKey ToLower c o)
      · have h3 : k ∈ List.map ((fun q => routeKey ToLower q.1 q.2) ∘ fun o => (c, o))
            p.Trigger.Objects := by simpa [Function.comp] using h2
        simp [h1, h2, h3]
      · have h3 : k ∉ List.map ((fun q => routeKey ToLower q.1 q.2) ∘ fun o => (c, o))
            p.Trigger.Objects := by simpa [Function.comp] using h2
        simp [h1, h2, h3]

/-- A registration whose connection is established returns nil and binds every
trigger key of the handler to its entry, leaving the other keys as they were. -/
theorem RegisterPackage_get (ToLower : GoString → GoString)
    (Dial : GoString → Except Error RPCClient) (p : Pkg) (cl : RPCClient) (g : Globals)
    (k : GoString) (hd : Dial (pkgAddr p) = .ok cl) :
    (RegisterPackage ToLower Dial p g).1 = none ∧
    (RegisterPackage ToLower Dial p g).2.regPkgs.Get k =
      if k ∈ triggerKeys ToLower p then some ⟨p, cl⟩ else g.regPkgs.Get k := by
  have hd2 : Dial (p.Config.ServerAddress ++ (str ":" ++ Itoa (wrapInt (p.Config.Port + 1))))
      = .ok cl := hd
  cases hv : p.Vocab with
  | none => simp [RegisterPackage, hd2, hv, registerCommands_get, triggerKeys]
  | some v => simp [RegisterPackage, hd2, hv, registerCommands_get, triggerKeys]

/-- The registry after a sequence of successful registrations with pairwise
disjoint keys, from any initial state. -/
theorem registerAll_get (ToLower : GoString → GoString)
    (Dial : GoString → Except Error RPCClient) (ps : List Pkg) (g : Globals)
    (hdial : ∀ p ∈ ps, ∃ cl, Dial (pkgAddr p) = .ok cl)
    (hdisj : ps.Pairwise (fun p q =>
      ∀ k ∈ triggerKeys ToLower p, k ∉ triggerKeys ToLower q)) :
    (∀ p ∈ ps, ∀ k ∈ triggerKeys ToLower p, ∃ cl, Dial (pkgAddr p) = .ok cl ∧
      (registerAll ToLower Dial ps g).regPkgs.Get k = some ⟨p, cl⟩) ∧
    (∀ k, (∀ p ∈ ps, k ∉ triggerKeys ToLower p) →
      (registerAll ToLower Dial ps g).regPkgs.Get k = g.regPkgs.Get k) := by
  induction ps generalizing g with
  | nil => simp [registerAll]
  | cons p ps ih =>
    obtain ⟨cl, hcl⟩ := hdial p (by simp)
    have hdisj2 := List.pairwise_cons.mp hdisj
    have ih2 := ih (RegisterPackage ToLower Dial p g).2
      (fun q hq => hdial q (by simp [hq])) hdisj2.2
    constructor
    · intro q hq k hk
      rcases List.mem_cons.mp hq with h | h
      · subst h
        refine ⟨cl, hcl, ?_⟩
        simp only [registerAll]
        rw [ih2.2 k (fun r hr => hdisj2.1 r hr k hk)]
        rw [(RegisterPackage_get ToLower Dial q cl g k hcl).2]
        simp [hk]
      · simpa [registerAll] using ih2.1 q h k hk
    · intro k hk
      simp only [registerAll]
      rw [ih2.2 k (fun r hr => hk r (by simp [hr]))]
      rw [(RegisterPackage_get ToLower Dial p cl g k hcl).2]
      simp [hk p (by simp)]

/-- The key of a trigger pair is a trigger key. -/
theorem mem_triggerKeys (ToLower : GoString → GoString) (p : Pkg) (c o : GoString)
    (hc : c ∈ p.Trigger.Commands) (ho : o ∈ p.Trigger.Objects) :
    routeKey ToLower c o ∈ triggerKeys ToLower p := by
  simp only [triggerKeys, pairs, List.mem_map, List.mem_flatMap]
  exact ⟨(c, o), ⟨c, hc, o, ho, rfl⟩, rfl⟩

/-- The vocabulary after a loop over the keys of a vocabulary map. -/
theorem registerVocab_get (ks : List GoString) (am : AtomicMap) (k : GoString) :
    (registerVocab ks am).Get k = (decide (k ∈ ks) || am.Get k) := by
  induction ks generalizing am with
  | nil => simp [registerVocab]
  | cons x xs ih =>
    simp only [registerVocab, ih, List.mem_cons]
    by_cases h1 : k ∈ xs
    · simp [h1]
    · by_cases h2 : k = x
      · simp [h1, h2, AtomicMap.Get, AtomicMap.Set]
      · simp [h1, h2, AtomicMap.Get, AtomicMap.Set]

/-- The vocabulary after the inner loop of `RegisterPackage`. -/
theorem registerObjects_vocab (ToLower : GoString → GoString) (p : Pkg) (cl : RPCClient)
    (c : GoString) (os : List GoString) (g : Globals) (k : GoString) :
    (registerObjects ToLower p cl c os g).appVocab.Get k =
      (decide (k ∈ os) || g.appVocab.Get k) := by
  induction os generalizing g with
  | nil => simp [registerObjects]
  | cons o os ih =>
    simp only [registerObjects, ih, List.mem_cons]
    by_cases h1 : k ∈ os
    · simp [h1]
    · by_cases h2 : k = o
      · simp [h1, h2, AtomicMap.Get, AtomicMap.Set]
      · simp [h1, h2, AtomicMap.Get, AtomicMap.Set]

/-- The vocabulary after the outer loop of `RegisterPackage`: the trigger objects
are added only when there is a trigger command. -/
theorem registerCommands_vocab (ToLower : GoString → GoString) (p : Pkg) (cl : RPCClient)
    (cs : List GoString) (g : Globals) (k : GoString) :
    (registerCommands ToLower p cl cs g).appVocab.Get k =
      (decide (k ∈ cs) || (decide (cs ≠ []) && decide (k ∈ p.Trigger.Objects))
        || g.appVocab.Get k) := by
  induction cs generalizing g with
  | nil => simp [registerCommands]
  | cons c cs ih =>
    simp only [registerCommands, ih, registerObjects_vocab, List.mem_cons]
    by_cases h1 : k ∈ cs <;> by_cases h2 : k = c <;> by_cases h3 : k ∈ p.Trigger.Objects <;>
      by_cases h4 : cs = [] <;> simp [h1, h2, h3, h4, AtomicMap.Get, AtomicMap.Set]

/-- The vocabulary left by a registration whose connection is established. -/
theorem RegisterPackage_vocab (ToLower : GoString → GoString)
    (Dial : GoString → Except Error RPCClient) (p : Pkg) (cl : RPCClient) (g : Globals)
    (k : GoString) (hd : Dial (pkgAddr p) = .ok cl) :
    (RegisterPackage ToLower Dial p g).2.appVocab.Get k =
      (decide (k ∈ p.Trigger.Commands)
        || (decide (p.Trigger.Commands ≠ []) && decide (k ∈ p.Trigger.Objects))
        || (match p.Vocab with
            | none => false
            | some v => decide (k ∈ v.Commands) || decide (k ∈ v.Objects))
        || g.appVocab.Get k) := by
  have hd2 : Dial (p.Config.ServerAddress ++ (str ":" ++ Itoa (wrapInt (p.Config.Port + 1))))
      = .ok cl := hd
  cases hv : p.Vocab with
  | none => simp [RegisterPackage, hd2, hv, registerCommands_vocab]
  | some v =>
    simp only [RegisterPackage, hd2, hv, registerVocab_get, registerCommands_vocab]
    cases decide (k ∈ v.Objects) <;> cases decide (k ∈ v.Commands) <;>
      cases decide (k ∈ p.Trigger.Commands) <;> simp

/-! ## Substitution of a referent -/

/-- The substitution loop replaces `w` by `ctx` position by position. -/
theorem substitute_eq_map (w ctx : GoString) (l : List GoString) :
    substitute w ctx l = l.map (fun o => if o ≠ w then o else ctx) := by
  induction l with
  | nil => rfl
  | cons o os ih => simp [substitute, ih]

/-! ## Routing: `getPkg` -/

/-- C1. For every registry and every turn with an identified user, if at least one
(command, object) pair of the turn has its routing key registered, then the list
of pairs in the order "commands outer loop, objects inner loop" splits at a first
registered pair `(c, o)` (no pair before it is registered), and `getPkg` returns
the entry registered under the key of that pair, that key as the route,
`isFollowUp = false` and no error, whatever the turn history is. -/
theorem getPkg_first_registered_pair (ToLower : GoString → GoString) (regPkgs : pkgMap)
    (m : Msg) (u : User) (hu : m.User = some u)
    (hex : ∃ q ∈ pairs m.StructuredInput.Commands m.StructuredInput.Objects,
      (regPkgs.Get (routeKey ToLower q.1 q.2)).isSome = true) :
    ∃ pre c o post e,
      pairs m.StructuredInput.Commands m.StructuredInput.Objects = pre ++ (c, o) :: post ∧
      (∀ x ∈ pre, regPkgs.Get (routeKey ToLower x.1 x.2) = none) ∧
      regPkgs.Get (routeKey ToLower c o) = some e ∧
      ∀ db : DB, getPkg ToLower regPkgs db m = (some e, routeKey ToLower c o, false, none) := by
  obtain ⟨pre, c, o, post, e, hsplit, hpre, hhit⟩ :=
    exists_first_registered ToLower regPkgs _ hex
  refine ⟨pre, c, o, post, e, hsplit, hpre, hhit, ?_⟩
  intro db
  have hs := searchPairs_hit ToLower regPkgs pre post (c, o) e (none, []) hpre hhit
  simp only [getPkg, hu, searchCommands_eq, hsplit, hs]

/-- The witness of C1: commands `buy`, objects `stock` and `coffee`, only
`buy_coffee` registered; the turn is routed to the `buy_coffee` entry with route
`buy_coffee` and `isFollowUp = false`. -/
theorem getPkg_first_registered_pair_witness :
    getPkg asciiToLower regCoffee dbPizza
        (turn (some ⟨7⟩) [str "buy"] [str "stock", str "coffee"]) =
      (some ⟨coffeePkg, ⟨1⟩⟩, str "buy_coffee", false, none) ∧
    ∃ pre c o post e,
      pairs (turn (some ⟨7⟩) [str "buy"] [str "stock", str "coffee"]).StructuredInput.Commands
        (turn (some ⟨7⟩) [str "buy"] [str "stock", str "coffee"]).StructuredInput.Objects
        = pre ++ (c, o) :: post ∧
      (∀ x ∈ pre, regCoffee.Get (routeKey asciiToLower x.1 x.2) = none) ∧
      regCoffee.Get (routeKey asciiToLower c o) = some e ∧
      ∀ db : DB, getPkg asciiToLower regCoffee db
        (turn (some ⟨7⟩) [str "buy"] [str "stock", str "coffee"]) =
          (some e, routeKey asciiToLower c o, false, none) :=
  ⟨by decide,
   getPkg_first_registered_pair asciiToLower regCoffee
     (turn (some ⟨7⟩) [str "buy"] [str "stock", str "coffee"]) ⟨7⟩ rfl
     ⟨(str "buy", str "coffee"), by decide, by decide⟩⟩

/-- C2, as amended. For every registry and every turn with an identified user that
has no (command, object) pair at all (no detected command or no detected object):
if the last-route query of the user returns a non-empty route `R` and `R` is
registered, then `getPkg` returns the entry registered under `R`, route `R`,
`isFollowUp = true` and no error. -/
theorem getPkg_follow_up_when_no_pair (ToLower : GoString → GoString) (regPkgs : pkgMap)
    (db : DB) (m : Msg) (u : User) (R : GoString) (e : PkgWrapper)
    (hu : m.User = some u)
    (hno : m.StructuredInput.Commands = [] ∨ m.StructuredInput.Objects = [])
    (hlast : db.lastRoute u.ID = .ok R) (hR : R ≠ [])
    (hreg : regPkgs.Get R = some e) :
    getPkg ToLower regPkgs db m = (some e, R, true, none) := by
  have hp : pairs m.StructuredInput.Commands m.StructuredInput.Objects = [] := by
    rcases hno with h | h <;> simp [pairs, h]
  have hlen : R.length ≠ 0 := by
    intro h; exact hR (List.length_eq_zero.mp h)
  simp [getPkg, hu, searchCommands_eq, hp, searchPairs, GetLastRoute, hlast, hlen, hreg]

/-- The witness of C2 as amended: a turn without command or object, the last
route `order_pizza` registered. -/
theorem getPkg_follow_up_when_no_pair_witness :
    getPkg asciiToLower regPizza dbPizza (turn (some ⟨7⟩) [] []) =
      (some ⟨pizzaPkg, ⟨2⟩⟩, str "order_pizza", true, none) :=
  getPkg_follow_up_when_no_pair asciiToLower regPizza dbPizza (turn (some ⟨7⟩) [] []) ⟨7⟩
    (str "order_pizza") ⟨pizzaPkg, ⟨2⟩⟩ rfl (Or.inl rfl) rfl (by decide) (by decide)

/-- The counterexample of C2: the turn has the pair (`buy`, `stock`), whose key is
not registered, the last route of the user is `order_pizza` and it is registered;
`getPkg` does not follow up on `order_pizza`: it returns no entry, the route
`buy_stock` and the missing-handler error. -/
theorem getPkg_unmatched_pair_not_follow_up :
    (∀ q ∈ pairs [str "buy"] [str "stock"],
      regPizza.Get (routeKey asciiToLower q.1 q.2) = none) ∧
    dbPizza.lastRoute 7 = .ok (str "order_pizza") ∧
    regPizza.Get (str "order_pizza") = some ⟨pizzaPkg, ⟨2⟩⟩ ∧
    getPkg asciiToLower regPizza dbPizza (turn (some ⟨7⟩) [str "buy"] [str "stock"]) =
      (none, str "buy_stock", false, some Error.ErrMissingPackage) :=
  ⟨by decide, rfl, by decide, by decide⟩

/-- C8, as amended. For every registry and every turn with an identified user that
has no (command, object) pair at all (no detected command or no detected object):
if the last-route query of the user yields no rows, then `getPkg` returns no
entry and no error, with `isFollowUp = false` (and the empty route). -/
theorem getPkg_nothing_when_no_pair_no_rows (ToLower : GoString → GoString)
    (regPkgs : pkgMap) (db : DB) (m : Msg) (u : User)
    (hu : m.User = some u)
    (hno : m.StructuredInput.Commands = [] ∨ m.StructuredInput.Objects = [])
    (hlast : db.lastRoute u.ID = .error SqlError.ErrNoRows) :
    getPkg ToLower regPkgs db m = (none, [], false, none) := by
  have hp : pairs m.StructuredInput.Commands m.StructuredInput.Objects = [] := by
    rcases hno with h | h <;> simp [pairs, h]
  simp [getPkg, hu, searchCommands_eq, hp, searchPairs, GetLastRoute, hlast]

/-- The witness of C8 as amended: a turn with a command and no object, and a
history without rows. -/
theorem getPkg_nothing_when_no_pair_no_rows_witness :
    getPkg asciiToLower regCoffee dbEmpty (turn (some ⟨7⟩) [str "buy"] []) =
      (none, [], false, none) :=
  getPkg_nothing_when_no_pair_no_rows asciiToLower regCoffee dbEmpty
    (turn (some ⟨7⟩) [str "buy"] []) ⟨7⟩ rfl (Or.inr rfl) rfl

/-- The counterexample of C8: the turn has the pair (`buy`, `stock`), whose key is
not registered, and the history has no row; `getPkg` returns the missing-handler
error with the route `buy_stock`, not "no entry and no error". -/
theorem getPkg_unmatched_pair_no_rows :
    (∀ q ∈ pairs [str "buy"] [str "stock"],
      regCoffee.Get (routeKey asciiToLower q.1 q.2) = none) ∧
    dbEmpty.lastRoute 7 = .error SqlError.ErrNoRows ∧
    getPkg asciiToLower regCoffee dbEmpty (turn (some ⟨7⟩) [str "buy"] [str "stock"]) =
      (none, str "buy_stock", false, some Error.ErrMissingPackage) :=
  ⟨by decide, rfl, by decide⟩

/-- What `getPkg` does for a turn that has (command, object) pairs none of which
is registered: with `(c, o)` the last pair tried and a non-empty key for it, the
history is not consulted and the result is no entry, the key of `(c, o)` and the
missing-handler error. -/
theorem getPkg_unmatched_pairs (ToLower : GoString → GoString) (regPkgs : pkgMap)
    (db : DB) (m : Msg) (u : User) (front : List (GoString × GoString)) (c o : GoString)
    (hu : m.User = some u)
    (hsplit : pairs m.StructuredInput.Commands m.StructuredInput.Objects = front ++ [(c, o)])
    (hmiss : ∀ q ∈ pairs m.StructuredInput.Commands m.StructuredInput.Objects,
      regPkgs.Get (routeKey ToLower q.1 q.2) = none)
    (hkey : routeKey ToLower c o ≠ []) :
    getPkg ToLower regPkgs db m =
      (none, routeKey ToLower c o, false, some Error.ErrMissingPackage) := by
  have hs := searchPairs_miss ToLower regPkgs _ [] hmiss
  have hc : regPkgs.Get (routeKey ToLower c o) = none := hmiss (c, o) (by simp [hsplit])
  have hf : (pairs m.StructuredInput.Commands m.StructuredInput.Objects).foldl
      (fun _ x => routeKey ToLower x.1 x.2) [] = routeKey ToLower c o := by
    rw [hsplit]; simp
  rw [hf] at hs
  simp [getPkg, hu, searchCommands_eq, hs, hkey, hc]

/-- C10. For every registry, turn (with or without a user) and history: when
`getPkg` returns a present entry, the error is nil and the entry is the
registry entry at the returned routing key; when `getPkg` returns the
missing-handler error, the entry is absent, `isFollowUp` is false and the
registry has no entry at the returned routing key; and `isFollowUp = true` comes
only with a present entry and a nil error. -/
theorem getPkg_consistent (ToLower : GoString → GoString) (regPkgs : pkgMap) (db : DB)
    (m : Msg) :
    (∀ e, (getPkg ToLower regPkgs db m).1 = some e →
      (getPkg ToLower regPkgs db m).2.2.2 = none ∧
      regPkgs.Get (getPkg ToLower regPkgs db m).2.1 = some e) ∧
    ((getPkg ToLower regPkgs db m).2.2.2 = some Error.ErrMissingPackage →
      (getPkg ToLower regPkgs db m).1 = none ∧
      (getPkg ToLower regPkgs db m).2.2.1 = false ∧
      regPkgs.Get (getPkg ToLower regPkgs db m).2.1 = none) ∧
    ((getPkg ToLower regPkgs db m).2.2.1 = true →
      (getPkg ToLower regPkgs db m).1.isSome = true ∧
      (getPkg ToLower regPkgs db m).2.2.2 = none) := by
  cases hu : m.User with
  | none =>
    cases hg : regPkgs.Get (str "onboard_onboard") with
    | none => simp [getPkg, hu, hg]
    | some p => simp [getPkg, hu, hg]
  | some u =>
    have hinv := searchPairs_inv ToLower regPkgs
      (pairs m.StructuredInput.Commands m.StructuredInput.Objects) []
    cases hs : searchPairs ToLower regPkgs
        (pairs m.StructuredInput.Commands m.StructuredInput.Objects) (none, []) with
    | mk p route =>
      rw [hs] at hinv
      cases p with
      | some e =>
        have := hinv e rfl
        simp [getPkg, hu, searchCommands_eq, hs, this]
      | none =>
        simp only [getPkg, hu, searchCommands_eq, hs]
        by_cases hlen : route.length = 0
        · simp only [hlen, if_true]
          cases hl : db.lastRoute u.ID with
          | error err =>
            by_cases herr : err = SqlError.ErrNoRows
            · simp [GetLastRoute, hl, herr]
            · simp [GetLastRoute, hl, herr]
          | ok r =>
            simp only [GetLastRoute, hl]
            by_cases hr : r.length = 0
            · simp [hr]
            · cases hg : regPkgs.Get r with
              | none => simp [hr, hg]
              | some e => simp [hr, hg]
        · simp only [hlen, if_false]
          cases hg : regPkgs.Get route with
          | none => simp [hg]
          | some e => simp [hg]

/-! ## Registration: `RegisterPackage` -/

/-- C4, as amended. For every sequence of successful registrations, from the empty
registry, whose handlers have pairwise disjoint sets of routing keys (no key
`lowercase(c + "_" + o)` of a trigger pair of one handler is a key of another
handler): after all registrations, for every handler `p` and every pair `(c, o)`
of its trigger commands and objects, looking up the key of `(c, o)` returns the
entry of `p` (the description `p` with the connection dialled for `p`), which is
the entry of no handler other than `p`; and looking up a key that is the key of no
trigger pair of any handler returns absent. -/
theorem registerAll_lookup (ToLower : GoString → GoString)
    (Dial : GoString → Except Error RPCClient) (ps : List Pkg)
    (hdial : ∀ p ∈ ps, ∃ cl, Dial (pkgAddr p) = .ok cl)
    (hdisj : ps.Pairwise (fun p q =>
      ∀ k ∈ triggerKeys ToLower p, k ∉ triggerKeys ToLower q)) :
    (∀ p ∈ ps, ∀ c ∈ p.Trigger.Commands, ∀ o ∈ p.Trigger.Objects,
      ∃ cl, Dial (pkgAddr p) = .ok cl ∧
        (registerAll ToLower Dial ps Globals.init).regPkgs.Get (routeKey ToLower c o)
          = some ⟨p, cl⟩ ∧
        ∀ q ∈ ps, q ≠ p → ∀ cl2,
          (registerAll ToLower Dial ps Globals.init).regPkgs.Get (routeKey ToLower c o)
            ≠ some ⟨q, cl2⟩) ∧
    (∀ k, (∀ p ∈ ps, k ∉ triggerKeys ToLower p) →
      (registerAll ToLower Dial ps Globals.init).regPkgs.Get k = none) := by
  have h := registerAll_get ToLower Dial ps Globals.init hdial hdisj
  constructor
  · intro p hp c hc o ho
    obtain ⟨cl, hcl, hget⟩ := h.1 p hp _ (mem_triggerKeys ToLower p c o hc ho)
    refine ⟨cl, hcl, hget, ?_⟩
    intro q _ hqp cl2 hq
    rw [hget] at hq
    injection hq with hq
    injection hq with h1 _
    exact hqp h1.symm
  · intro k hk
    rw [h.2 k hk]
    rfl

/-- The witness of C4 as amended: the coffee handler and the pizza handler,
registered in this order. -/
theorem registerAll_lookup_witness :
    (∀ p ∈ [coffeePkg, pizzaPkg], ∀ c ∈ p.Trigger.Commands, ∀ o ∈ p.Trigger.Objects,
      ∃ cl, demoDial (pkgAddr p) = .ok cl ∧
        (registerAll asciiToLower demoDial [coffeePkg, pizzaPkg] Globals.init).regPkgs.Get
          (routeKey asciiToLower c o) = some ⟨p, cl⟩ ∧
        ∀ q ∈ [coffeePkg, pizzaPkg], q ≠ p → ∀ cl2,
          (registerAll asciiToLower demoDial [coffeePkg, pizzaPkg] Globals.init).regPkgs.Get
            (routeKey asciiToLower c o) ≠ some ⟨q, cl2⟩) ∧
    (∀ k, (∀ p ∈ [coffeePkg, pizzaPkg], k ∉ triggerKeys asciiToLower p) →
      (registerAll asciiToLower demoDial [coffeePkg, pizzaPkg] Globals.init).regPkgs.Get k
        = none) :=
  registerAll_lookup asciiToLower demoDial [coffeePkg, pizzaPkg]
    (by
      intro p hp
      rcases List.mem_cons.mp hp with h | h
      · exact ⟨⟨1⟩, by subst h; rfl⟩
      · rcases List.mem_cons.mp h with h2 | h2
        · exact ⟨⟨2⟩, by subst h2; rfl⟩
        · simp at h2)
    (by decide)

/-- The counterexample of C4: two handlers without a common trigger word, both
registered successfully; the trigger pair (`order_large`, `pizza`) of the first
and the trigger pair (`order`, `large_pizza`) of the second have the same routing
key, and the lookup of the pair of the first handler returns the entry of the
second. -/
theorem registerAll_underscore_clash :
    (∀ w ∈ triggerWords comboPkg, w ∉ triggerWords sizePkg) ∧
    (RegisterPackage asciiToLower demoDial comboPkg Globals.init).1 = none ∧
    (RegisterPackage asciiToLower demoDial sizePkg
      (RegisterPackage asciiToLower demoDial comboPkg Globals.init).2).1 = none ∧
    str "order_large" ∈ comboPkg.Trigger.Commands ∧
    str "pizza" ∈ comboPkg.Trigger.Objects ∧
    (registerAll asciiToLower demoDial [comboPkg, sizePkg] Globals.init).regPkgs.Get
      (routeKey asciiToLower (str "order_large") (str "pizza")) = some ⟨sizePkg, ⟨2⟩⟩ :=
  ⟨by decide, by decide, by decide, by decide, by decide, by decide⟩

/-- C7. The code at the failing input: a handler description with the trigger
object `coffee` and no trigger command is registered successfully on the state
at start-up, and `coffee` is not in the vocabulary afterwards. -/
theorem RegisterPackage_objects_without_commands :
    objectOnlyPkg.Trigger.Commands = [] ∧
    str "coffee" ∈ objectOnlyPkg.Trigger.Objects ∧
    (RegisterPackage asciiToLower demoDial objectOnlyPkg Globals.init).1 = none ∧
    (RegisterPackage asciiToLower demoDial objectOnlyPkg Globals.init).2.appVocab.Get
      (str "coffee") = false :=
  ⟨by decide, by decide, by decide, by decide⟩

/-! ## Context resolution: `addContext` -/

/-- C9. For every turn with an attached user whose only detected pronoun is an
object-referring token `w`, and a history whose context query for the objects
slot yields a non-empty last value `r`: `addContext` succeeds, the resulting
objects list has the length of the original, holds `r` at every index where the
original held `w` and the original value at every other index, and the commands,
actors, times and places are unchanged. -/
theorem addContext_object_pronoun (nlp : Nlp) (db : DB) (m : Msg) (u : User)
    (w : GoString) (tmp : StringSlice)
    (hu : m.User = some u)
    (hdet : nlp.detected m.StructuredInput = [w])
    (hslot : nlp.Pronouns w = PronounSlot.ObjectI)
    (hctx : db.context (str "objects") u.ID = .ok tmp)
    (hr : tmp.Last ≠ []) :
    (addContext nlp db m).2 = none ∧
    (addContext nlp db m).1.StructuredInput.Objects.length =
      m.StructuredInput.Objects.length ∧
    (∀ (i : Nat) (o : GoString), m.StructuredInput.Objects[i]? = some o →
      (o = w → (addContext nlp db m).1.StructuredInput.Objects[i]? = some tmp.Last) ∧
      (o ≠ w → (addContext nlp db m).1.StructuredInput.Objects[i]? = some o)) ∧
    (addContext nlp db m).1.StructuredInput.Commands = m.StructuredInput.Commands ∧
    (addContext nlp db m).1.StructuredInput.Actors = m.StructuredInput.Actors ∧
    (addContext nlp db m).1.StructuredInput.Times = m.StructuredInput.Times ∧
    (addContext nlp db m).1.StructuredInput.Places = m.StructuredInput.Places := by
  have hlen : tmp.Last.length ≠ 0 := by
    intro h; exact hr (List.length_eq_zero.mp h)
  have hrun : addContext nlp db m =
      ({ m with StructuredInput :=
          { m.StructuredInput with
            Objects := substitute w tmp.Last m.StructuredInput.Objects } }, none) := by
    simp [addContext, hdet, addContextLoop, hslot, getContextObject, hu, hctx, hlen]
  rw [hrun]
  refine ⟨rfl, ?_, ?_, rfl, rfl, rfl, rfl⟩
  · simp [substitute_eq_map]
  · intro i o hio
    simp only [substitute_eq_map, List.getElem?_map, hio, Option.map_some']
    constructor
    · intro h; simp [h]
    · intro h; simp [h]

/-- The witness of C9: the objects `it`, `it`, `milk` of the user 7, whose history
gives `coffee` as the last object; the result is `coffee`, `coffee`, `milk`. -/
theorem addContext_object_pronoun_witness :
    (addContext demoNlp dbCoffee
      (turn (some ⟨7⟩) [str "buy"] [str "it", str "it", str "milk"])).1.StructuredInput.Objects
        = [str "coffee", str "coffee", str "milk"] ∧
    ((addContext demoNlp dbCoffee
        (turn (some ⟨7⟩) [str "buy"] [str "it", str "it", str "milk"])).2 = none ∧
      (addContext demoNlp dbCoffee
        (turn (some ⟨7⟩) [str "buy"] [str "it", str "it", str "milk"])).1.StructuredInput.Objects.length
        = (turn (some ⟨7⟩) [str "buy"]
            [str "it", str "it", str "milk"]).StructuredInput.Objects.length ∧
      (∀ (i : Nat) (o : GoString),
        (turn (some ⟨7⟩) [str "buy"]
          [str "it", str "it", str "milk"]).StructuredInput.Objects[i]? = some o →
        (o = str "it" → (addContext demoNlp dbCoffee
          (turn (some ⟨7⟩) [str "buy"]
            [str "it", str "it", str "milk"])).1.StructuredInput.Objects[i]?
              = some (StringSlice.Last [str "tea", str "coffee"])) ∧
        (o ≠ str "it" → (addContext demoNlp dbCoffee
          (turn (some ⟨7⟩) [str "buy"]
            [str "it", str "it", str "milk"])).1.StructuredInput.Objects[i]? = some o)) ∧
      (addContext demoNlp dbCoffee
        (turn (some ⟨7⟩) [str "buy"] [str "it", str "it", str "milk"])).1.StructuredInput.Commands
        = (turn (some ⟨7⟩) [str "buy"]
            [str "it", str "it", str "milk"]).StructuredInput.Commands ∧
      (addContext demoNlp dbCoffee
        (turn (some ⟨7⟩) [str "buy"] [str "it", str "it", str "milk"])).1.StructuredInput.Actors
        = (turn (some ⟨7⟩) [str "buy"]
            [str "it", str "it", str "milk"]).StructuredInput.Actors ∧
      (addContext demoNlp dbCoffee
        (turn (some ⟨7⟩) [str "buy"] [str "it", str "it", str "milk"])).1.StructuredInput.Times
        = (turn (some ⟨7⟩) [str "buy"]
            [str "it", str "it", str "milk"]).StructuredInput.Times ∧
      (addContext demoNlp dbCoffee
        (turn (some ⟨7⟩) [str "buy"] [str "it", str "it", str "milk"])).1.StructuredInput.Places
        = (turn (some ⟨7⟩) [str "buy"]
            [str "it", str "it", str "milk"]).StructuredInput.Places) :=
  ⟨by decide,
   addContext_object_pronoun demoNlp dbCoffee
     (turn (some ⟨7⟩) [str "buy"] [str "it", str "it", str "milk"]) ⟨7⟩ (str "it")
     [str "tea", str "coffee"] rfl (by decide) (by decide) rfl (by decide)⟩

/-- C3. The code at the failing input: the user 7 says `buy it`, the object
pronoun `it` is detected, and the context query yields no rows; `addContext`
returns the turn unchanged together with the error `sql.ErrNoRows`. -/
theorem addContext_no_rows_is_error :
    (turn (some ⟨7⟩) [str "buy"] [str "it"]).User = some ⟨7⟩ ∧
    demoNlp.detected (turn (some ⟨7⟩) [str "buy"] [str "it"]).StructuredInput = [str "it"] ∧
    demoNlp.Pronouns (str "it") = PronounSlot.ObjectI ∧
    dbEmpty.context (str "objects") 7 = .error SqlError.ErrNoRows ∧
    addContext demoNlp dbEmpty (turn (some ⟨7⟩) [str "buy"] [str "it"]) =
      (turn (some ⟨7⟩) [str "buy"] [str "it"], some (Error.sql SqlError.ErrNoRows)) :=
  ⟨rfl, by decide, by decide, rfl, by decide⟩

/-- C5, as amended. For every turn with no attached user whose first detected
pronoun is classified in one of the four slots (object, actor, time, place),
`addContext` fails with the missing-user error and leaves the turn unchanged,
whatever the other pronouns are and whatever the history holds. -/
theorem addContext_missing_user (nlp : Nlp) (db : DB) (m : Msg) (w : GoString)
    (ws : List GoString)
    (hu : m.User = none)
    (hdet : nlp.detected m.StructuredInput = w :: ws)
    (hslot : nlp.Pronouns w ≠ PronounSlot.unrecognized) :
    addContext nlp db m = (m, some Error.ErrMissingUser) := by
  cases hs : nlp.Pronouns w with
  | unrecognized => exact absurd hs hslot
  | ObjectI => simp [addContext, hdet, addContextLoop, hs, getContextObject, hu]
  | ActorI => simp [addContext, hdet, addContextLoop, hs, getContextObject, hu]
  | TimeI => simp [addContext, hdet, addContextLoop, hs, getContextObject, hu]
  | PlaceI => simp [addContext, hdet, addContextLoop, hs, getContextObject, hu]

/-- The witness of C5 as amended: a turn without user whose detected pronouns are
`there` and `it`. -/
theorem addContext_missing_user_witness :
    addContext demoNlp dbCoffee (turn none [str "ship"] [str "there", str "it"]) =
      (turn none [str "ship"] [str "there", str "it"], some Error.ErrMissingUser) :=
  addContext_missing_user demoNlp dbCoffee (turn none [str "ship"] [str "there", str "it"])
    (str "there") [str "it"] rfl (by decide) (by decide)

/-- The counterexample of C5: a turn without user whose only detected pronoun,
`those`, is not classified by the pronoun table; `addContext` fails with the
unknown-pronoun error, not with the missing-user error. -/
theorem addContext_unrecognized_without_user :
    (turn none [str "buy"] [str "those"]).User = none ∧
    mismatchNlp.detected (turn none [str "buy"] [str "those"]).StructuredInput
      = [str "those"] ∧
    addContext mismatchNlp dbEmpty (turn none [str "buy"] [str "those"]) =
      (turn none [str "buy"] [str "those"], some Error.unknownPronoun) ∧
    (addContext mismatchNlp dbEmpty (turn none [str "buy"] [str "those"])).2
      ≠ some Error.ErrMissingUser :=
  ⟨rfl, by decide, by decide, by decide⟩

/-! ## Tokens: `SentenceFields` -/

/-- C6. The code at the failing input: the sentence `buy 2.5 kilos` gives the
tokens `buy`, `.`, `2.`, `kilos`; the token `2.` is neither exactly one
punctuation mark nor free of punctuation marks (and the `5` is lost). -/
theorem SentenceFields_word_keeps_mark :
    SentenceFields asciiFields asciiToLower (str "buy 2.5 kilos") =
      [str "buy", str ".", str "2.", str "kilos"] ∧
    isMarkToken (str "2.") = false ∧
    markFree (str "2.") = false :=
  ⟨by decide, by decide, by decide⟩

end Abot
